import Mathlib

/-!
Verification development for the activity-tracker core: the Session
Aggregator in `src/main/tracker/database.ts` and the Notification
Scheduler in `src/main/notifications.ts`.

Times and durations are milliseconds, modelled as `Nat` (all values the
program manipulates are non-negative epoch times and durations; the one
JS subtraction that could go negative, `now - lastBreakNotification`,
is compared against a positive bound, and a negative difference and the
truncated-to-zero `Nat` difference fall on the same side of that bound).

The persistent key-value settings store holds strings; JSON blobs pass
through `JSON.stringify`/`JSON.parse` on their way in and out.  We model
a stored value directly as a `Json` tree, so `set (stringify v)` followed
by `parse (get ...)` is the identity, which is the behaviour of the JSON
library on the values this program stores.
-/

/-- JSON value tree, the shape of the blobs the program persists in its
settings store (`daily_goals`, `goals_notified_today`) plus plain strings
for the scalar settings. -/
inductive Json where
  | null : Json
  | str (s : String) : Json
  | num (n : Nat) : Json
  | arr (xs : List Json) : Json
  | obj (fields : List (String × Json)) : Json

/-- Property access `j.k` on a parsed JSON value: a field of an object,
`undefined` (here `none`) otherwise. -/
def Json.getField? : Json → String → Option Json
  | Json.obj fields, k => fields.lookup k
  | _, _ => none

/-- The settings store: string keys to stored values (see module comment;
structured blobs are kept in parsed form).  Writes shadow earlier pairs. -/
abbrev KV := List (String × Json)

/-- Write a settings key (`setSetting`): the new pair shadows old ones. -/
def kvSet (store : KV) (key : String) (v : Json) : KV := (key, v) :: store

/-- Read a settings key as the string `getSetting` would return: `some s`
for a stored plain string, `none` when absent (a structured blob at the
key would be its stringified form; none of the scalar keys ever hold one). -/
def getSettingStr (store : KV) (key : String) : Option String :=
  match store.lookup key with
  | some (Json.str s) => some s
  | _ => none

/-- Value of a JavaScript dynamic property read: `undefined` for a missing
property, otherwise the (null / string / number) field value. -/
inductive JsVal where
  | undef : JsVal
  | null : JsVal
  | str (s : String) : JsVal
  | num (n : Nat) : JsVal
deriving DecidableEq

/-- JavaScript `Math.round (n / d)` for non-negative rational `n / d`
(round half up): `floor (n / d + 1 / 2)`. -/
def roundDiv (n d : Nat) : Nat := (2 * n + d) / (2 * d)

/-- JavaScript `String.prototype.replace(/_/g, " ")`, as a character-wise
map over the string's characters. -/
def replaceUnderscores (s : String) : String :=
  String.mk (s.data.map (fun c => if c = '_' then ' ' else c))

/-- Digit run at the head of a character list, as `parseInt` reads it:
`none` when the first character is not a digit. -/
def parseDigits : List Char → Nat → Bool → Option Nat
  | [], acc, started => if started then some acc else none
  | c :: cs, acc, started =>
    if c.isDigit then parseDigits cs (acc * 10 + (c.toNat - 48)) true
    else if started then some acc else none

/-- JavaScript `parseInt(s, 10)`: skip leading whitespace, optional sign,
then the longest leading digit run; `none` models `NaN`. -/
def jsParseInt (s : String) : Option Int :=
  match s.toList.dropWhile (fun c => c.isWhitespace) with
  | '-' :: rest => (parseDigits rest 0 false).map (fun n => -(n : Int))
  | '+' :: rest => (parseDigits rest 0 false).map (fun n => (n : Int))
  | cs => (parseDigits cs 0 false).map (fun n => (n : Int))

/-- Source `formatDuration` (notifications.ts lines 9-16): hours and
minutes, `"1h 30m"` / `"1h"` / `"45m"`. -/
def formatDuration (ms : Nat) : String :=
  let hours := ms / 3600000
  let minutes := (ms % 3600000) / 60000
  if 0 < hours then
    if 0 < minutes then toString hours ++ "h " ++ toString minutes ++ "m"
    else toString hours ++ "h"
  else toString minutes ++ "m"

/-- Source `(targetMs / 3600000).toFixed(1).replace(/\.0$/, "")`
(notifications.ts line 109): the target in hours to one decimal place with
a trailing ".0" stripped.  `toFixed(1)` on the (exact, for these inputs)
rational is rounding to the nearest tenth. -/
def formatHoursTenths (targetMs : Nat) : String :=
  let tenths := roundDiv (targetMs * 10) 3600000
  if tenths % 10 = 0 then toString (tenths / 10)
  else toString (tenths / 10) ++ "." ++ toString (tenths % 10)

/-- Descending insertion by a numeric key; models the SQL
`ORDER BY ... DESC` (stable on ties, which the spec leaves unspecified). -/
def insertDescBy {α : Type} (key : α → Nat) (x : α) : List α → List α
  | [] => [x]
  | y :: ys => if key y < key x then x :: y :: ys else y :: insertDescBy key x ys

/-- Sort a list descending by a numeric key. -/
def sortDescBy {α : Type} (key : α → Nat) (l : List α) : List α :=
  l.foldr (insertDescBy key) []

/-! ## Session aggregator (src/main/tracker/database.ts) -/

/-- A `sessions` table row. -/
structure SessionRow where
  id : Nat
  appName : String
  category : Option String
  startTime : Nat
  endTime : Nat
  totalDuration : Nat
  activityCount : Nat
deriving DecidableEq

/-- An `activities` table row.  `createdAt` (a DB-assigned timestamp the
program never reads) is omitted. -/
structure ActivityRow where
  id : Nat
  sessionId : Option Nat
  appName : String
  windowTitle : Option String
  url : Option String
  category : Option String
  projectName : Option String
  fileName : Option String
  fileType : Option String
  language : Option String
  domain : Option String
  startTime : Nat
  endTime : Nat
  duration : Nat
  contextJson : Option String
deriving DecidableEq

/-- The argument record of `insertActivity` (database.ts lines 156-170). -/
structure ActInput where
  app_name : String
  window_title : String
  url : Option String
  category : String
  project_name : Option String
  file_name : Option String
  file_type : Option String
  language : Option String
  domain : Option String
  start_time : Nat
  end_time : Nat
  duration : Nat
  context_json : Option String
deriving DecidableEq

/-- State of the `ActivityDatabase` class: the two tables, the open-session
pointer pair, and the next AUTOINCREMENT ids (SQLite starts them at 1). -/
structure AggState where
  sessions : List SessionRow
  activities : List ActivityRow
  currentSessionId : Option Nat
  currentSessionAppName : Option String
  nextSessionId : Nat
  nextActivityId : Nat
deriving DecidableEq

/-- State of a freshly initialised database: empty tables, no open session. -/
def initState : AggState :=
  { sessions := [], activities := [], currentSessionId := none,
    currentSessionAppName := none, nextSessionId := 1, nextActivityId := 1 }

/-- JavaScript truthiness of the `number | null` field `currentSessionId`:
`null` and `0` are falsy. -/
def truthy : Option Nat → Bool
  | none => false
  | some n => decide (n ≠ 0)

/-- The row `createSession` inserts (database.ts lines 105-120): `endTime`
equals `startTime`, totals start at zero. -/
def newSessionRow (id : Nat) (appName : String) (category : Option String)
    (startTime : Nat) : SessionRow :=
  { id := id, appName := appName, category := category, startTime := startTime,
    endTime := startTime, totalDuration := 0, activityCount := 0 }

/-- Source `createSession`: insert a fresh session row, returning its id. -/
def createSession (st : AggState) (appName : String) (category : Option String)
    (startTime : Nat) : Nat × AggState :=
  let sid := st.nextSessionId
  let st1 := { st with
    sessions := st.sessions ++ [newSessionRow sid appName category startTime]
    nextSessionId := sid + 1 }
  (sid, st1)

/-- The per-row effect of `updateSession` (database.ts lines 123-133) on the
matched session: set `endTime`, add the duration, bump the count. -/
def applySessionUpdate (s : SessionRow) (endTime duration : Nat) : SessionRow :=
  { s with
    endTime := endTime
    totalDuration := s.totalDuration + duration
    activityCount := s.activityCount + 1 }

/-- Source `updateSession`: apply the update to every row whose id matches. -/
def updateSession (st : AggState) (sessionId endTime duration : Nat) : AggState :=
  { st with
    sessions := st.sessions.map
      (fun s => if s.id = sessionId then applySessionUpdate s endTime duration else s) }

/-- Source `getOrCreateSession` (database.ts lines 136-147): reuse the open
session when its id is truthy and the app name matches, otherwise create a
new session and point at it. -/
def getOrCreateSession (st : AggState) (appName : String) (category : Option String)
    (startTime : Nat) : Nat × AggState :=
  if truthy st.currentSessionId ∧ st.currentSessionAppName = some appName then
    (st.currentSessionId.getD 0, st)
  else
    let (sid, st1) := createSession st appName category startTime
    (sid, { st1 with currentSessionId := some sid, currentSessionAppName := some appName })

/-- Source `closeCurrentSession`: clear the open-session pointer only. -/
def closeCurrentSession (st : AggState) : AggState :=
  { st with currentSessionId := none, currentSessionAppName := none }

/-- The activity row `insertActivity` inserts for a sample. -/
def mkActivityRow (id sid : Nat) (x : ActInput) : ActivityRow :=
  { id := id, sessionId := some sid, appName := x.app_name,
    windowTitle := some x.window_title, url := x.url, category := some x.category,
    projectName := x.project_name, fileName := x.file_name, fileType := x.file_type,
    language := x.language, domain := x.domain, startTime := x.start_time,
    endTime := x.end_time, duration := x.duration, contextJson := x.context_json }

/-- Source `insertActivity` (database.ts lines 156-203): get or create the
session, insert the activity row referencing it, then update the session
totals; returns the new state and the activity id. -/
def insertActivity (st : AggState) (x : ActInput) : AggState × Nat :=
  let p := getOrCreateSession st x.app_name (some x.category) x.start_time
  let sid := p.1
  let st1 := p.2
  let aid := st1.nextActivityId
  let st2 := { st1 with
    activities := st1.activities ++ [mkActivityRow aid sid x]
    nextActivityId := aid + 1 }
  (updateSession st2 sid x.end_time x.duration, aid)

/-- One externally visible aggregator operation. -/
inductive Op where
  | insert (x : ActInput) : Op
  | close : Op

/-- Apply one aggregator operation. -/
def stepOp (st : AggState) : Op → AggState
  | Op.insert x => (insertActivity st x).1
  | Op.close => closeCurrentSession st

/-- Run a list of aggregator operations in order. -/
def runOps (st : AggState) (ops : List Op) : AggState := ops.foldl stepOp st

/-- Run a list of `insertActivity` calls in order (no intervening close). -/
def insertRun (st : AggState) (xs : List ActInput) : AggState :=
  xs.foldl (fun s x => (insertActivity s x).1) st

/-! ## Aggregation queries (src/main/tracker/database.ts) -/

/-- Source `getTotalTrackedTime`: summed duration of activities whose
`startTime` lies in the inclusive range (`0` when there are none). -/
def getTotalTrackedTime (acts : List ActivityRow) (startTime endTime : Nat) : Nat :=
  ((acts.filter (fun a => decide (startTime ≤ a.startTime ∧ a.startTime ≤ endTime))).map
    (fun a => a.duration)).sum

/-- One row of `getCategoryBreakdown`'s result set: the selected columns
are named `category`, `total_duration` and `session_count`
(database.ts lines 252-257). -/
structure BRow where
  category : Option String
  total_duration : Nat
  session_count : Nat
deriving DecidableEq

/-- JavaScript property read on a breakdown row: the three selected columns
exist, any other property (in particular `category_name`, which
notifications.ts reads) is `undefined`. -/
def BRow.jsGet (r : BRow) (field : String) : JsVal :=
  if field = "category" then
    match r.category with
    | none => JsVal.null
    | some s => JsVal.str s
  else if field = "total_duration" then JsVal.num r.total_duration
  else if field = "session_count" then JsVal.num r.session_count
  else JsVal.undef

/-- Source `getCategoryBreakdown`: group in-range activities by category
(null its own bucket), sum durations and count rows, order by summed
duration descending. -/
def getCategoryBreakdown (acts : List ActivityRow) (startTime endTime : Nat) :
    List BRow :=
  let rows := acts.filter (fun a => decide (startTime ≤ a.startTime ∧ a.startTime ≤ endTime))
  let keys := (rows.map (fun a => a.category)).eraseDups
  sortDescBy (fun r => r.total_duration)
    (keys.map (fun k =>
      { category := k,
        total_duration := ((rows.filter (fun a => decide (a.category = k))).map
          (fun a => a.duration)).sum,
        session_count := (rows.filter (fun a => decide (a.category = k))).length }))

/-- Result shape `ActivityRecord` (database.ts lines 8-25), as produced by
`mapToRecord`; `created_at` omitted as in `ActivityRow`. -/
structure ActivityRecord where
  id : Nat
  session_id : Option Nat
  app_name : String
  window_title : Option String
  url : Option String
  category : Option String
  project_name : Option String
  file_name : Option String
  file_type : Option String
  language : Option String
  domain : Option String
  start_time : Nat
  end_time : Nat
  duration : Nat
  context_json : Option String
deriving DecidableEq

/-- Source `mapToRecord`: rename the row fields to their snake_case
record shape. -/
def mapToRecord (r : ActivityRow) : ActivityRecord :=
  { id := r.id, session_id := r.sessionId, app_name := r.appName,
    window_title := r.windowTitle, url := r.url, category := r.category,
    project_name := r.projectName, file_name := r.fileName, file_type := r.fileType,
    language := r.language, domain := r.domain, start_time := r.startTime,
    end_time := r.endTime, duration := r.duration, context_json := r.contextJson }

/-- Result shape `SessionWithActivities` (database.ts lines 27-40). -/
structure SessionWithActivities where
  id : Nat
  app_name : String
  category : Option String
  start_time : Nat
  end_time : Nat
  total_duration : Nat
  activity_count : Nat
  activities : List ActivityRecord
deriving DecidableEq

/-- Append a record to the bucket of key `k` in an insertion-ordered map,
as `Map.get`/`push`/`Map.set` does in the source's grouping loop. -/
def bucketAppend (m : List (Nat × List ActivityRecord)) (k : Nat)
    (v : ActivityRecord) : List (Nat × List ActivityRecord) :=
  match m with
  | [] => [(k, [v])]
  | (k', vs) :: rest =>
    if k' = k then (k', vs ++ [v]) :: rest else (k', vs) :: bucketAppend rest k v

/-- Source `getSessionsWithActivities` (database.ts lines 408-459): sessions
in range (by their own `startTime`), each joined with the in-range
activities grouped under key `sessionId ?? 0`. -/
def getSessionsWithActivities (sessions : List SessionRow) (acts : List ActivityRow)
    (startTime endTime : Nat) : List SessionWithActivities :=
  let sessionRows := sortDescBy (fun s => s.startTime)
    (sessions.filter (fun s => decide (startTime ≤ s.startTime ∧ s.startTime ≤ endTime)))
  if sessionRows.isEmpty then []
  else
    let activityRows := sortDescBy (fun a => a.startTime)
      (acts.filter (fun a => decide (startTime ≤ a.startTime ∧ a.startTime ≤ endTime)))
    let bySession := activityRows.foldl
      (fun m a => bucketAppend m (a.sessionId.getD 0) (mapToRecord a)) []
    sessionRows.map (fun s =>
      { id := s.id, app_name := s.appName, category := s.category,
        start_time := s.startTime, end_time := s.endTime,
        total_duration := s.totalDuration, activity_count := s.activityCount,
        activities := (bySession.lookup s.id).getD [] })

/-! ## Notification scheduler (src/main/notifications.ts)

The `ActivityDatabase` settings accessors `getSetting`/`setSetting` that
notifications.ts calls are not part of the sources provided here (the spec
lists them as the external `PersistentKV.get`/`set` collaborator); they are
modelled as lookup/prepend on the `KV` store above. -/

/-- A parsed `DailyGoal` entry (notifications.ts lines 4-7). -/
structure Goal where
  categoryName : String
  targetMs : Nat
deriving DecidableEq

/-- Encode a goal list the way the settings page stores `daily_goals`. -/
def encodeGoals (goals : List Goal) : Json :=
  Json.arr (goals.map (fun g =>
    Json.obj [("categoryName", Json.str g.categoryName), ("targetMs", Json.num g.targetMs)]))

/-- Decode one stored goal object; `none` for a malformed element. -/
def decodeGoal (j : Json) : Option Goal :=
  match j.getField? "categoryName", j.getField? "targetMs" with
  | some (Json.str c), some (Json.num t) => some { categoryName := c, targetMs := t }
  | _, _ => none

/-- Decode the stored `daily_goals` value: `none` unless it is an array of
well-formed goal objects (the source returns early on a non-array and the
claims only concern well-formed goal lists). -/
def decodeGoals : Json → Option (List Goal)
  | Json.arr xs => xs.mapM decodeGoal
  | _ => none

/-- A notification handed to the OS sink.  `category` records, for the
goal-reached emission site only, which goal's `categoryName` the
notification was emitted for (the argument in scope at the `show()` call);
it is `none` for every other family. -/
structure NotifEvent where
  title : String
  body : String
  category : Option String
deriving DecidableEq

/-- Source `isEnabled` (notifications.ts lines 146-149): the master flag,
on unless the stored value is exactly `"false"`. -/
def notificationsEnabled (store : KV) : Bool :=
  !(getSettingStr store "notifications_enabled" == some "false")

/-- Source `isDailySummaryEnabled` (lines 196-200): master flag and the
summary family flag. -/
def dailySummaryEnabled (store : KV) : Bool :=
  notificationsEnabled store &&
    !(getSettingStr store "daily_summary_enabled" == some "false")

/-- Source `getDailySummaryHour` (lines 202-206): parse the stored string,
default 18 when the key is absent, empty, non-numeric, or out of [0,23]. -/
def getDailySummaryHour (val : Option String) : Int :=
  match val with
  | none => 18
  | some s =>
    if s = "" then 18
    else
      match jsParseInt s with
      | none => 18
      | some h => if h < 0 ∨ 23 < h then 18 else h

/-- Source `getBreakIntervalMs` (lines 157-161): stored minutes (default
60, and 60 again when non-numeric or below 1), times 60 000. -/
def getBreakIntervalMs (val : Option String) : Nat :=
  (match val with
   | none => 60
   | some s =>
     if s = "" then 60
     else
       match jsParseInt s with
       | none => 60
       | some m => if m < 1 then 60 else m.toNat) * 60000

/-- Source `fireBreakReminder` (lines 178-189): suppress silently when less
than five minutes have passed since the last break notification shown,
otherwise record the firing time and show the reminder.  Returns the new
`lastBreakNotification` and the notifications shown.  The function arms no
timer in either branch. -/
def fireBreakReminder (intervalMs now lastBreakNotification : Nat) :
    Nat × List NotifEvent :=
  if now - lastBreakNotification < 5 * 60000 then (lastBreakNotification, [])
  else
    (now, [{ title := "Time for a break!",
             body := "You\x27ve been working for " ++ toString (roundDiv intervalMs 60000) ++ " minutes.",
             category := none }])

/-- Settings key of the goal-notified ledger. -/
def ledgerKey : String := "goals_notified_today"

/-- Source `getNotifiedGoalsToday` (lines 32-47): the stored ledger's goal
list when its date is today's date string and its `goals` is an array,
otherwise empty.  The JS `Set` is modelled by the list of the array's
string elements with `∈` as membership (a non-string element can never
equal a goal's `categoryName`). -/
def getNotifiedGoalsToday (store : KV) (today : String) : List String :=
  match store.lookup ledgerKey with
  | none => []
  | some j =>
    match j.getField? "date", j.getField? "goals" with
    | some (Json.str d), some (Json.arr gs) =>
      if d = today then
        gs.filterMap (fun x => match x with | Json.str s => some s | _ => none)
      else []
    | _, _ => []

/-- Add to the ledger set: JS `Set.add` keeps the first copy. -/
def addUnique (l : List String) (s : String) : List String :=
  if s ∈ l then l else l ++ [s]

/-- Source `markGoalNotified` (lines 50-58): re-read the ledger, add the
category, persist `{date: today, goals: [...]}`. -/
def markGoalNotified (store : KV) (today : String) (categoryName : String) : KV :=
  let notified := addUnique (getNotifiedGoalsToday store today) categoryName
  kvSet store ledgerKey
    (Json.obj [("date", Json.str today), ("goals", Json.arr (notified.map Json.str))])

/-- Goal-reached notification body (notifications.ts lines 108-113). -/
def goalNotifBody (goal : Goal) : String :=
  "You hit your " ++ replaceUnderscores goal.categoryName ++ " goal of " ++
    formatHoursTenths goal.targetMs ++ "h."

/-- State `checkGoals` works over: the settings store and the notifications
shown so far. -/
structure CheckState where
  store : KV
  events : List NotifEvent

/-- The goal-reached notification for one goal (notifications.ts
lines 110-113). -/
def goalEvent (goal : Goal) : NotifEvent :=
  { title := "Goal reached!", body := goalNotifBody goal,
    category := some goal.categoryName }

/-- One iteration of `checkGoals`'s loop (lines 100-115).  `notifiedToday`
is the ledger snapshot taken once before the loop.  The current duration
is looked up by comparing the row property `category_name` — which is not
a column of `getCategoryBreakdown`'s rows, so the read is `undefined` —
with the goal's category, exactly as the source does. -/
def goalStep (today : String) (breakdown : List BRow) (notifiedToday : List String)
    (acc : CheckState) (goal : Goal) : CheckState :=
  if goal.categoryName ∈ notifiedToday then acc
  else
    let currentMs :=
      match breakdown.find? (fun c => decide (c.jsGet "category_name" = JsVal.str goal.categoryName)) with
      | some m => m.total_duration
      | none => 0
    if goal.targetMs ≤ currentMs then
      { store := markGoalNotified acc.store today goal.categoryName,
        events := acc.events ++ [goalEvent goal] }
    else acc

/-- Source `checkGoals` (lines 77-116): gated on the master flag, no-op
when `daily_goals` is absent or malformed, otherwise one `goalStep` per
goal against the ledger snapshot.  `today` is the local date string and
`breakdown` the result of `getCategoryBreakdown` over today. -/
def checkGoals (today : String) (breakdown : List BRow) (st : CheckState) : CheckState :=
  if notificationsEnabled st.store then
    match st.store.lookup "daily_goals" with
    | none => st
    | some gj =>
      match decodeGoals gj with
      | none => st
      | some goals =>
        let notifiedToday := getNotifiedGoalsToday st.store today
        goals.foldl (goalStep today breakdown notifiedToday) st
  else st

/-- Modelled from the spec (section 4.3 Goal check): identical to
`goalStep` except that the goal's category is compared with the breakdown
row's per-category key — its `category` column — as the spec's "compare
its current summed duration to targetMs" requires.  Kept only to exhibit
the divergence from the source's `category_name` read. -/
def goalStepSpec (today : String) (breakdown : List BRow) (notifiedToday : List String)
    (acc : CheckState) (goal : Goal) : CheckState :=
  if goal.categoryName ∈ notifiedToday then acc
  else
    let currentMs :=
      match breakdown.find? (fun c => decide (c.category = some goal.categoryName)) with
      | some m => m.total_duration
      | none => 0
    if goal.targetMs ≤ currentMs then
      { store := markGoalNotified acc.store today goal.categoryName,
        events := acc.events ++ [goalEvent goal] }
    else acc

/-- Modelled from the spec: `checkGoals` with the spec's category matching
(see `goalStepSpec`). -/
def checkGoalsSpec (today : String) (breakdown : List BRow) (st : CheckState) : CheckState :=
  if notificationsEnabled st.store then
    match st.store.lookup "daily_goals" with
    | none => st
    | some gj =>
      match decodeGoals gj with
      | none => st
      | some goals =>
        let notifiedToday := getNotifiedGoalsToday st.store today
        goals.foldl (goalStepSpec today breakdown notifiedToday) st
  else st

/-- Outcome of one `fireDailySummary` call: the two shown-today fields, the
notifications shown, and whether the call threw (the body-building line
`topCategory.category_name.replace(...)` throws a TypeError when the read
is `undefined`; mutations made before the throw persist). -/
structure SummaryOutcome where
  dailySummaryShownToday : Bool
  lastSummaryDate : Option String
  events : List NotifEvent
  crashed : Bool
deriving DecidableEq

/-- Source `fireDailySummary` (lines 243-300).  `today` is the local date
string, `totalTime` and `breakdown` are today's `getTotalTrackedTime` and
`getCategoryBreakdown` results, `shownToday`/`lastDate` the in-memory
shown-for-today state on entry. -/
def fireDailySummary (store : KV) (today : String) (totalTime : Nat)
    (breakdown : List BRow) (shownToday : Bool) (lastDate : Option String) :
    SummaryOutcome :=
  if !(dailySummaryEnabled store) then
    { dailySummaryShownToday := shownToday, lastSummaryDate := lastDate,
      events := [], crashed := false }
  else if shownToday ∧ lastDate = some today then
    { dailySummaryShownToday := shownToday, lastSummaryDate := lastDate,
      events := [], crashed := false }
  else if totalTime < 60000 then
    { dailySummaryShownToday := true, lastSummaryDate := some today,
      events := [], crashed := false }
  else
    let top : Option BRow :=
      match breakdown with
      | [] => none
      | b0 :: _ =>
        some (breakdown.foldl
          (fun mx c => if mx.total_duration < c.total_duration then c else mx) b0)
    let productiveTime : Nat :=
      match store.lookup "daily_goals" with
      | none => 0
      | some gj =>
        match decodeGoals gj with
        | none => 0
        | some goals =>
          let goalCategories := goals.map (fun g => g.categoryName)
          ((breakdown.filter (fun c =>
            match c.jsGet "category_name" with
            | JsVal.str s => decide (s ∈ goalCategories)
            | _ => false)).map (fun c => c.total_duration)).sum
    let focusPercent : Nat :=
      if 0 < totalTime then roundDiv (productiveTime * 100) totalTime else 0
    let body0 := "Total: " ++ formatDuration totalTime
    match top with
    | none =>
      let body1 := if 0 < productiveTime then
        body0 ++ " • Focus: " ++ toString focusPercent ++ "%" else body0
      { dailySummaryShownToday := true, lastSummaryDate := some today,
        events := [{ title := "Daily Summary", body := body1, category := none }],
        crashed := false }
    | some tc =>
      match tc.jsGet "category_name" with
      | JsVal.str s =>
        let body1 := body0 ++ " • Top: " ++ replaceUnderscores s
        let body2 := if 0 < productiveTime then
          body1 ++ " • Focus: " ++ toString focusPercent ++ "%" else body1
        { dailySummaryShownToday := true, lastSummaryDate := some today,
          events := [{ title := "Daily Summary", body := body2, category := none }],
          crashed := false }
      | _ =>
        { dailySummaryShownToday := true, lastSummaryDate := some today,
          events := [], crashed := true }

/-! ## Invariants and concrete inputs -/

/-- Summed duration of the stored activities that belong to session `sid`. -/
def sessionSum (acts : List ActivityRow) (sid : Nat) : Nat :=
  ((acts.filter (fun a => decide (a.sessionId = some sid))).map (fun a => a.duration)).sum

/-- Number of stored activities that belong to session `sid`. -/
def sessionCount (acts : List ActivityRow) (sid : Nat) : Nat :=
  (acts.filter (fun a => decide (a.sessionId = some sid))).length

/-- The session-totals invariant: every stored session's `totalDuration` and
`activityCount` agree with its activities. -/
def totalsInv (st : AggState) : Prop :=
  ∀ s ∈ st.sessions, s.totalDuration = sessionSum st.activities s.id ∧
    s.activityCount = sessionCount st.activities s.id

/-- Structural well-formedness of an aggregator state: the session id
counter is positive and strictly bounds every stored session id, every
session reference held by an activity, and the open-session pointer. -/
def wf (st : AggState) : Prop :=
  0 < st.nextSessionId ∧
  (∀ s ∈ st.sessions, s.id < st.nextSessionId) ∧
  (∀ a ∈ st.activities, ∀ j, a.sessionId = some j → j < st.nextSessionId) ∧
  (∀ cid, st.currentSessionId = some cid → cid < st.nextSessionId)

/-- Number of goal-reached notifications for category `g` in an event log. -/
def countCat (evs : List NotifEvent) (g : String) : Nat :=
  (evs.filter (fun e => decide (e.category = some g))).length

/-- A 10-minute "Editor" sample starting at `t`, as in the spec's
Scenario A. -/
def editorSample (t : Nat) : ActInput :=
  { app_name := "Editor", window_title := "doc", url := none,
    category := "development", project_name := none, file_name := none,
    file_type := none, language := none, domain := none, start_time := t,
    end_time := t + 600000, duration := 600000, context_json := none }

/-- A stored activity row: 3 700 000 ms of "development" today
(the spec's Scenario C data). -/
def c3Activity : ActivityRow :=
  { id := 1, sessionId := some 1, appName := "Code", windowTitle := none,
    url := none, category := some "development", projectName := none,
    fileName := none, fileType := none, language := none, domain := none,
    startTime := 1000, endTime := 3701000, duration := 3700000, contextJson := none }

/-- A settings store holding one goal: development, 3 600 000 ms. -/
def c3Store : KV :=
  [("daily_goals", encodeGoals [{ categoryName := "development", targetMs := 3600000 }])]

/-- A settings store whose goal list names the same category twice. -/
def c4Store : KV :=
  [("daily_goals", encodeGoals [{ categoryName := "x", targetMs := 0 },
                                { categoryName := "x", targetMs := 0 }])]

/-- A stored activity row with only 45 000 ms tracked today (Scenario D). -/
def c5Activity : ActivityRow :=
  { c3Activity with duration := 45000, endTime := 46000 }

/-- A stored activity row with 90 minutes of "development" tracked today. -/
def c6Activity : ActivityRow :=
  { c3Activity with duration := 5400000, endTime := 5401000 }

/-- A stored session row for the orphan-activity query example. -/
def c9Session : SessionRow :=
  { id := 1, appName := "Code", category := some "development", startTime := 500,
    endTime := 3701000, totalDuration := 3700000, activityCount := 1 }

/-- An activity row with no session (legacy `sessionId` null). -/
def c9Orphan : ActivityRow :=
  { c3Activity with id := 7, sessionId := none, startTime := 2000 }

/-! ## Helper lemmas for the session aggregator -/

theorem insertActivity_reuse_eq (st : AggState) (x : ActInput) (cid : Nat)
    (h1 : st.currentSessionId = some cid) (h0 : cid ≠ 0)
    (h2 : st.currentSessionAppName = some x.app_name) :
    (insertActivity st x).1 = { st with
      sessions := st.sessions.map
        (fun s => if s.id = cid then applySessionUpdate s x.end_time x.duration else s)
      activities := st.activities ++ [mkActivityRow st.nextActivityId cid x]
      nextActivityId := st.nextActivityId + 1 } := by
  have hceq : truthy (some cid) = true ∧ st.currentSessionAppName = some x.app_name :=
    ⟨by simp [truthy, h0], h2⟩
  simp only [insertActivity, getOrCreateSession, updateSession, h1, if_pos hceq,
    Option.getD_some]

theorem insertActivity_create_eq (st : AggState) (x : ActInput)
    (hc : ¬ (truthy st.currentSessionId = true ∧ st.currentSessionAppName = some x.app_name)) :
    (insertActivity st x).1 = { st with
      sessions := (st.sessions ++
          [newSessionRow st.nextSessionId x.app_name (some x.category) x.start_time]).map
        (fun s => if s.id = st.nextSessionId then applySessionUpdate s x.end_time x.duration else s)
      activities := st.activities ++ [mkActivityRow st.nextActivityId st.nextSessionId x]
      currentSessionId := some st.nextSessionId
      currentSessionAppName := some x.app_name
      nextSessionId := st.nextSessionId + 1
      nextActivityId := st.nextActivityId + 1 } := by
  simp only [insertActivity, getOrCreateSession, createSession, updateSession, if_neg hc]

theorem sessionSum_append (l1 l2 : List ActivityRow) (sid : Nat) :
    sessionSum (l1 ++ l2) sid = sessionSum l1 sid + sessionSum l2 sid := by
  simp [sessionSum, List.filter_append]

theorem sessionCount_append (l1 l2 : List ActivityRow) (sid : Nat) :
    sessionCount (l1 ++ l2) sid = sessionCount l1 sid + sessionCount l2 sid := by
  simp [sessionCount, List.filter_append]

theorem sessionSum_singleton (r : ActivityRow) (sid : Nat) :
    sessionSum [r] sid = if r.sessionId = some sid then r.duration else 0 := by
  by_cases h : r.sessionId = some sid <;> simp [sessionSum, h]

theorem sessionCount_singleton (r : ActivityRow) (sid : Nat) :
    sessionCount [r] sid = if r.sessionId = some sid then 1 else 0 := by
  by_cases h : r.sessionId = some sid <;> simp [sessionCount, h]

theorem sessionSum_eq_zero (acts : List ActivityRow) (sid : Nat)
    (h : ∀ a ∈ acts, a.sessionId ≠ some sid) : sessionSum acts sid = 0 := by
  induction acts with
  | nil => rfl
  | cons a as ih =>
    have ha : a.sessionId ≠ some sid := h a (List.mem_cons_self a as)
    have := ih (fun b hb => h b (List.mem_cons_of_mem a hb))
    simpa [sessionSum, List.filter_cons, ha] using this

theorem sessionCount_eq_zero (acts : List ActivityRow) (sid : Nat)
    (h : ∀ a ∈ acts, a.sessionId ≠ some sid) : sessionCount acts sid = 0 := by
  induction acts with
  | nil => rfl
  | cons a as ih =>
    have ha : a.sessionId ≠ some sid := h a (List.mem_cons_self a as)
    have := ih (fun b hb => h b (List.mem_cons_of_mem a hb))
    simpa [sessionCount, List.filter_cons, ha] using this

theorem insertActivity_preserves (st : AggState) (x : ActInput)
    (hwf : wf st) (hinv : totalsInv st) :
    wf (insertActivity st x).1 ∧ totalsInv (insertActivity st x).1 := by
  obtain ⟨hpos, hsess, hact, hptr⟩ := hwf
  by_cases hc : truthy st.currentSessionId = true ∧ st.currentSessionAppName = some x.app_name
  · obtain ⟨hcid_t, happ⟩ := hc
    obtain ⟨cid, hcid⟩ : ∃ n, st.currentSessionId = some n := by
      cases h : st.currentSessionId with
      | none => rw [h] at hcid_t; simp [truthy] at hcid_t
      | some n => exact ⟨n, rfl⟩
    have hcid0 : cid ≠ 0 := by
      rw [hcid] at hcid_t; simpa [truthy] using hcid_t
    have hcidlt : cid < st.nextSessionId := hptr cid hcid
    rw [insertActivity_reuse_eq st x cid hcid hcid0 happ]
    constructor
    · refine ⟨hpos, ?_, ?_, ?_⟩
      · intro s hs
        simp only [List.mem_map] at hs
        obtain ⟨s0, hs0, rfl⟩ := hs
        show (if s0.id = cid then applySessionUpdate s0 x.end_time x.duration else s0).id <
          st.nextSessionId
        by_cases h : s0.id = cid <;> simp [h, applySessionUpdate] <;> [exact hcidlt; exact hsess s0 hs0]
      · intro a ha j hj
        simp only [List.mem_append, List.mem_singleton] at ha
        show j < st.nextSessionId
        rcases ha with ha | rfl
        · exact hact a ha j hj
        · simp [mkActivityRow] at hj
          omega
      · intro c hcp
        show c < st.nextSessionId
        exact hptr c hcp
    · intro s hs
      simp only [List.mem_map] at hs
      obtain ⟨s0, hs0, rfl⟩ := hs
      obtain ⟨ht, hcnt⟩ := hinv s0 hs0
      show (if s0.id = cid then applySessionUpdate s0 x.end_time x.duration else s0).totalDuration =
          sessionSum (st.activities ++ [mkActivityRow st.nextActivityId cid x])
            (if s0.id = cid then applySessionUpdate s0 x.end_time x.duration else s0).id ∧
        (if s0.id = cid then applySessionUpdate s0 x.end_time x.duration else s0).activityCount =
          sessionCount (st.activities ++ [mkActivityRow st.nextActivityId cid x])
            (if s0.id = cid then applySessionUpdate s0 x.end_time x.duration else s0).id
      by_cases h : s0.id = cid
      · rw [if_pos h]
        have hid : (applySessionUpdate s0 x.end_time x.duration).id = s0.id := rfl
        rw [hid, sessionSum_append, sessionCount_append, sessionSum_singleton,
          sessionCount_singleton, h]
        simp [applySessionUpdate, mkActivityRow, ht, hcnt, h]
      · rw [if_neg h]
        rw [sessionSum_append, sessionCount_append, sessionSum_singleton,
          sessionCount_singleton]
        have hne : ¬ ((mkActivityRow st.nextActivityId cid x).sessionId = some s0.id) := by
          simp [mkActivityRow]
          exact fun he => h he.symm
        simp [hne, ht, hcnt]
  · rw [insertActivity_create_eq st x hc]
    have hfresh : ∀ a ∈ st.activities, a.sessionId ≠ some st.nextSessionId := by
      intro a ha he
      exact absurd (hact a ha _ he) (lt_irrefl _)
    constructor
    · refine ⟨?_, ?_, ?_, ?_⟩
      · show 0 < st.nextSessionId + 1
        omega
      · intro s hs
        simp only [List.mem_map, List.mem_append, List.mem_singleton] at hs
        obtain ⟨s0, hs0, rfl⟩ := hs
        show (if s0.id = st.nextSessionId then applySessionUpdate s0 x.end_time x.duration else s0).id <
          st.nextSessionId + 1
        have hidle : s0.id ≤ st.nextSessionId := by
          rcases hs0 with hs0 | rfl
          · exact le_of_lt (hsess s0 hs0)
          · exact le_refl _
        by_cases h : s0.id = st.nextSessionId
        · simp [h, applySessionUpdate]
        · simp [h, applySessionUpdate]
          omega
      · intro a ha j hj
        simp only [List.mem_append, List.mem_singleton] at ha
        show j < st.nextSessionId + 1
        rcases ha with ha | rfl
        · have := hact a ha j hj; omega
        · simp [mkActivityRow] at hj; omega
      · intro c hcp
        show c < st.nextSessionId + 1
        have : some st.nextSessionId = some c := hcp
        injection this with h
        omega
    · intro s hs
      simp only [List.mem_map, List.mem_append, List.mem_singleton] at hs
      obtain ⟨s0, hs0, rfl⟩ := hs
      show (if s0.id = st.nextSessionId then applySessionUpdate s0 x.end_time x.duration else s0).totalDuration =
          sessionSum (st.activities ++ [mkActivityRow st.nextActivityId st.nextSessionId x])
            (if s0.id = st.nextSessionId then applySessionUpdate s0 x.end_time x.duration else s0).id ∧
        (if s0.id = st.nextSessionId then applySessionUpdate s0 x.end_time x.duration else s0).activityCount =
          sessionCount (st.activities ++ [mkActivityRow st.nextActivityId st.nextSessionId x])
            (if s0.id = st.nextSessionId then applySessionUpdate s0 x.end_time x.duration else s0).id
      rcases hs0 with hs0 | rfl
      · have hne : s0.id ≠ st.nextSessionId := by
          have := hsess s0 hs0; omega
        rw [if_neg hne]
        obtain ⟨ht, hcnt⟩ := hinv s0 hs0
        rw [sessionSum_append, sessionCount_append, sessionSum_singleton,
          sessionCount_singleton]
        have hne2 : ¬ ((mkActivityRow st.nextActivityId st.nextSessionId x).sessionId = some s0.id) := by
          simp [mkActivityRow]
          exact fun he => hne he.symm
        simp [hne2, ht, hcnt]
      · have hid : (newSessionRow st.nextSessionId x.app_name (some x.category) x.start_time).id =
            st.nextSessionId := rfl
        rw [if_pos hid]
        have hid2 : (applySessionUpdate
            (newSessionRow st.nextSessionId x.app_name (some x.category) x.start_time)
            x.end_time x.duration).id = st.nextSessionId := rfl
        rw [hid2, sessionSum_append, sessionCount_append, sessionSum_singleton,
          sessionCount_singleton,
          sessionSum_eq_zero st.activities _ hfresh, sessionCount_eq_zero st.activities _ hfresh]
        simp [applySessionUpdate, mkActivityRow, newSessionRow]

theorem closeCurrentSession_preserves (st : AggState)
    (hwf : wf st) (hinv : totalsInv st) :
    wf (closeCurrentSession st) ∧ totalsInv (closeCurrentSession st) := by
  obtain ⟨hpos, hsess, hact, _⟩ := hwf
  refine ⟨⟨hpos, hsess, hact, ?_⟩, hinv⟩
  intro c hcp
  simp [closeCurrentSession] at hcp

theorem runOps_preserves (ops : List Op) :
    ∀ st : AggState, wf st → totalsInv st →
      wf (runOps st ops) ∧ totalsInv (runOps st ops) := by
  induction ops with
  | nil => intro st h1 h2; exact ⟨h1, h2⟩
  | cons op ops ih =>
    intro st h1 h2
    show wf (runOps (stepOp st op) ops) ∧ totalsInv (runOps (stepOp st op) ops)
    cases op with
    | insert x =>
      obtain ⟨h1', h2'⟩ := insertActivity_preserves st x h1 h2
      exact ih _ h1' h2'
    | close =>
      obtain ⟨h1', h2'⟩ := closeCurrentSession_preserves st h1 h2
      exact ih _ h1' h2'

theorem initState_wf : wf initState := by
  refine ⟨Nat.one_pos, ?_, ?_, ?_⟩
  · intro s hs; simp [initState] at hs
  · intro a ha; simp [initState] at ha
  · intro cid h; simp [initState] at h

theorem initState_totalsInv : totalsInv initState := by
  intro s hs; simp [initState] at hs

theorem insertRun_preserves (samples : List ActInput) :
    ∀ st : AggState, wf st → totalsInv st →
      wf (insertRun st samples) ∧ totalsInv (insertRun st samples) := by
  induction samples with
  | nil => intro st h1 h2; exact ⟨h1, h2⟩
  | cons x xs ih =>
    intro st h1 h2
    show wf (insertRun (insertActivity st x).1 xs) ∧
      totalsInv (insertRun (insertActivity st x).1 xs)
    obtain ⟨h1', h2'⟩ := insertActivity_preserves st x h1 h2
    exact ih _ h1' h2'

theorem insertRun_reuse (a : String) (sid : Nat) (samples : List ActInput) :
    ∀ st : AggState, st.currentSessionId = some sid → sid ≠ 0 →
      st.currentSessionAppName = some a →
      (∀ x ∈ samples, x.app_name = a) →
      ∃ rows, (insertRun st samples).activities = st.activities ++ rows ∧
        rows.map (fun r => r.sessionId) = samples.map (fun _ => (some sid : Option Nat)) ∧
        rows.map (fun r => r.duration) = samples.map (fun x => x.duration) ∧
        (insertRun st samples).sessions.map (fun s => s.id) =
          st.sessions.map (fun s => s.id) := by
  induction samples with
  | nil =>
    intro st h1 h0 h2 h3
    exact ⟨[], by simp [insertRun], rfl, rfl, rfl⟩
  | cons x xs ih =>
    intro st h1 h0 h2 h3
    have hx : x.app_name = a := h3 x (List.mem_cons_self x xs)
    have heq := insertActivity_reuse_eq st x sid h1 h0 (by rw [h2, hx])
    have hrun : insertRun st (x :: xs) = insertRun (insertActivity st x).1 xs := rfl
    have f1 : (insertActivity st x).1.currentSessionId = some sid := by rw [heq]; exact h1
    have f2 : (insertActivity st x).1.currentSessionAppName = some a := by rw [heq]; exact h2
    obtain ⟨rows, ha, hb, hc', hd⟩ :=
      ih (insertActivity st x).1 f1 h0 f2 (fun y hy => h3 y (List.mem_cons_of_mem x hy))
    refine ⟨mkActivityRow st.nextActivityId sid x :: rows, ?_, ?_, ?_, ?_⟩
    · rw [hrun, ha, heq]
      simp
    · simp only [List.map_cons, hb, List.map_cons]
      rfl
    · simp only [List.map_cons, hc', List.map_cons]
      rfl
    · rw [hrun, hd, heq]
      show (st.sessions.map
          (fun s => if s.id = sid then applySessionUpdate s x.end_time x.duration else s)).map
          (fun s => s.id) = st.sessions.map (fun s => s.id)
      rw [List.map_map]
      congr 1
      funext s
      by_cases h : s.id = sid <;> simp [h, applySessionUpdate]

theorem map_updOne_eq_self (l : List SessionRow) (sid e d : Nat)
    (h : ∀ s ∈ l, s.id ≠ sid) :
    l.map (fun s => if s.id = sid then applySessionUpdate s e d else s) = l := by
  induction l with
  | nil => rfl
  | cons s ss ih =>
    have hs : s.id ≠ sid := h s (List.mem_cons_self s ss)
    simp [hs, ih (fun t ht => h t (List.mem_cons_of_mem s ht))]

theorem insertActivity_fresh (st : AggState) (x : ActInput)
    (hc : ¬ (truthy st.currentSessionId = true ∧ st.currentSessionAppName = some x.app_name))
    (hsess : ∀ s ∈ st.sessions, s.id < st.nextSessionId) :
    (insertActivity st x).1.sessions = st.sessions ++
        [applySessionUpdate
          (newSessionRow st.nextSessionId x.app_name (some x.category) x.start_time)
          x.end_time x.duration] ∧
    (insertActivity st x).1.activities =
      st.activities ++ [mkActivityRow st.nextActivityId st.nextSessionId x] ∧
    (insertActivity st x).1.currentSessionId = some st.nextSessionId ∧
    (insertActivity st x).1.currentSessionAppName = some x.app_name ∧
    (insertActivity st x).1.nextSessionId = st.nextSessionId + 1 := by
  have heq := insertActivity_create_eq st x hc
  refine ⟨?_, by rw [heq], by rw [heq], by rw [heq], by rw [heq]⟩
  rw [heq]
  show (st.sessions ++
      [newSessionRow st.nextSessionId x.app_name (some x.category) x.start_time]).map
      (fun s => if s.id = st.nextSessionId then applySessionUpdate s x.end_time x.duration else s) =
    _
  rw [List.map_append,
    map_updOne_eq_self st.sessions st.nextSessionId x.end_time x.duration
      (fun s hs => Nat.ne_of_lt (hsess s hs))]
  simp [newSessionRow, applySessionUpdate]

theorem sessionSum_all (rows : List ActivityRow) (sid : Nat)
    (h : ∀ r ∈ rows, r.sessionId = some sid) :
    sessionSum rows sid = (rows.map (fun r => r.duration)).sum := by
  induction rows with
  | nil => rfl
  | cons r rs ih =>
    have hr : r.sessionId = some sid := h r (List.mem_cons_self r rs)
    have := ih (fun b hb => h b (List.mem_cons_of_mem r hb))
    rw [show (r :: rs) = [r] ++ rs from rfl, sessionSum_append, sessionSum_singleton,
      if_pos hr, this]
    simp

theorem sessionCount_all (rows : List ActivityRow) (sid : Nat)
    (h : ∀ r ∈ rows, r.sessionId = some sid) :
    sessionCount rows sid = rows.length := by
  induction rows with
  | nil => rfl
  | cons r rs ih =>
    have hr : r.sessionId = some sid := h r (List.mem_cons_self r rs)
    have := ih (fun b hb => h b (List.mem_cons_of_mem r hb))
    rw [show (r :: rs) = [r] ++ rs from rfl, sessionCount_append, sessionCount_singleton,
      if_pos hr, this]
    simp [Nat.add_comm]

/-- C2: same-app grouping.  From any well-formed state whose open session
is not app `a`, a run of `insertActivity` calls all for app `a` (no close,
no other app in between) appends exactly one session row, gives every
inserted activity that session's id (the fresh `nextSessionId`), and leaves
that session with `activityCount` the number of samples and
`totalDuration` the sum of their durations. -/
theorem c2_same_app_grouping (st0 : AggState) (a : String) (samples : List ActInput)
    (hwf : wf st0) (hinv : totalsInv st0)
    (happ : ∀ x ∈ samples, x.app_name = a)
    (hopen : ¬ (truthy st0.currentSessionId = true ∧ st0.currentSessionAppName = some a))
    (hne : samples ≠ []) :
    ∃ rows, (insertRun st0 samples).activities = st0.activities ++ rows ∧
      rows.map (fun r => r.sessionId) =
        samples.map (fun _ => (some st0.nextSessionId : Option Nat)) ∧
      (insertRun st0 samples).sessions.length = st0.sessions.length + 1 ∧
      (∃ s ∈ (insertRun st0 samples).sessions, s.id = st0.nextSessionId) ∧
      (∀ s ∈ (insertRun st0 samples).sessions, s.id = st0.nextSessionId →
        s.activityCount = samples.length ∧
        s.totalDuration = (samples.map (fun x => x.duration)).sum) := by
  have hwf0 := hwf
  obtain ⟨hpos, hsess, hact, hptr⟩ := hwf
  cases samples with
  | nil => exact absurd rfl hne
  | cons x xs =>
    have hx : x.app_name = a := happ x (List.mem_cons_self x xs)
    have hopen' : ¬ (truthy st0.currentSessionId = true ∧
        st0.currentSessionAppName = some x.app_name) := by
      rw [hx]; exact hopen
    obtain ⟨fs, fa, fc1, fc2, fn⟩ := insertActivity_fresh st0 x hopen' hsess
    have hrun : insertRun st0 (x :: xs) = insertRun (insertActivity st0 x).1 xs := rfl
    have hsid0 : st0.nextSessionId ≠ 0 := by omega
    have fc2' : (insertActivity st0 x).1.currentSessionAppName = some a := by rw [fc2, hx]
    obtain ⟨rows, ha2, hb2, hc2, hd2⟩ :=
      insertRun_reuse a st0.nextSessionId xs (insertActivity st0 x).1 fc1 hsid0 fc2'
        (fun y hy => happ y (List.mem_cons_of_mem x hy))
    obtain ⟨hwf1, hinv1⟩ := insertActivity_preserves st0 x hwf0 hinv
    obtain ⟨hwfF, hinvF⟩ := insertRun_preserves xs (insertActivity st0 x).1 hwf1 hinv1
    refine ⟨mkActivityRow st0.nextActivityId st0.nextSessionId x :: rows, ?_, ?_, ?_, ?_, ?_⟩
    · rw [hrun, ha2, fa]
      simp
    · simp only [List.map_cons, hb2]
      rfl
    · have hlen : (insertRun (insertActivity st0 x).1 xs).sessions.length =
          (insertActivity st0 x).1.sessions.length := by
        have := congrArg List.length hd2
        simpa using this
      rw [hrun, hlen, fs]
      simp
    · have hmem : st0.nextSessionId ∈
          (insertRun (insertActivity st0 x).1 xs).sessions.map (fun s => s.id) := by
        rw [hd2, fs]
        simp [applySessionUpdate, newSessionRow]
      obtain ⟨s, hsmem, hsid⟩ := List.mem_map.mp hmem
      exact ⟨s, by rw [hrun]; exact hsmem, hsid⟩
    · intro s hsmem hsid
      rw [hrun] at hsmem
      obtain ⟨ht, hcnt⟩ := hinvF s hsmem
      have hacts : (insertRun (insertActivity st0 x).1 xs).activities = st0.activities ++
          (mkActivityRow st0.nextActivityId st0.nextSessionId x :: rows) := by
        rw [ha2, fa]
        simp
      have hall : ∀ r ∈ (mkActivityRow st0.nextActivityId st0.nextSessionId x :: rows),
          r.sessionId = some st0.nextSessionId := by
        intro r hr
        rcases List.mem_cons.mp hr with rfl | hr
        · rfl
        · have hmm : r.sessionId ∈ rows.map (fun r => r.sessionId) :=
            List.mem_map_of_mem _ hr
          rw [hb2] at hmm
          obtain ⟨y, _, hy⟩ := List.mem_map.mp hmm
          exact hy.symm
      have hold : ∀ r ∈ st0.activities, r.sessionId ≠ some st0.nextSessionId := by
        intro r hr he
        exact absurd (hact r hr _ he) (lt_irrefl _)
      have hrowlen : rows.length = xs.length := by
        have := congrArg List.length hb2
        simpa using this
      constructor
      · rw [hcnt, hacts, hsid, sessionCount_append,
          sessionCount_eq_zero st0.activities _ hold,
          sessionCount_all _ _ hall]
        simp [hrowlen]
      · rw [ht, hacts, hsid, sessionSum_append,
          sessionSum_eq_zero st0.activities _ hold,
          sessionSum_all _ _ hall]
        simp [mkActivityRow, hc2]

theorem goalStep_cases (today : String) (b : List BRow) (snap : List String)
    (acc : CheckState) (g : Goal) :
    goalStep today b snap acc g = acc ∨
    (g.categoryName ∉ snap ∧ goalStep today b snap acc g =
      { store := markGoalNotified acc.store today g.categoryName,
        events := acc.events ++ [goalEvent g] }) := by
  unfold goalStep
  by_cases h1 : g.categoryName ∈ snap
  · left; rw [if_pos h1]
  · rw [if_neg h1]
    by_cases h2 : g.targetMs ≤ (match b.find? (fun c => decide (c.jsGet "category_name" = JsVal.str g.categoryName)) with
      | some m => m.total_duration
      | none => 0)
    · right; exact ⟨h1, by rw [if_pos h2]⟩
    · left; rw [if_neg h2]

theorem filterMap_str_map (l : List String) :
    List.filterMap
      ((fun x => match x with | Json.str s => some s | _ => none) ∘ Json.str) l = l := by
  induction l with
  | nil => rfl
  | cons s ss ih => simp [Function.comp, ih]

theorem getNotified_mark (store : KV) (today g : String) :
    getNotifiedGoalsToday (markGoalNotified store today g) today =
      addUnique (getNotifiedGoalsToday store today) g := by
  unfold markGoalNotified kvSet getNotifiedGoalsToday
  simp [List.lookup, Json.getField?, ledgerKey, filterMap_str_map]

theorem mem_addUnique (l : List String) (s x : String) (h : x ∈ l) :
    x ∈ addUnique l s := by
  unfold addUnique
  split
  · exact h
  · exact List.mem_append_left _ h

theorem self_mem_addUnique (l : List String) (s : String) : s ∈ addUnique l s := by
  unfold addUnique
  split
  · assumption
  · exact List.mem_append_right _ (List.mem_singleton.mpr rfl)

theorem goalStep_notified_mono (today : String) (b : List BRow) (snap : List String)
    (acc : CheckState) (g : Goal) (x : String)
    (h : x ∈ getNotifiedGoalsToday acc.store today) :
    x ∈ getNotifiedGoalsToday (goalStep today b snap acc g).store today := by
  rcases goalStep_cases today b snap acc g with he | ⟨_, he⟩ <;> rw [he]
  · exact h
  · show x ∈ getNotifiedGoalsToday (markGoalNotified acc.store today g.categoryName) today
    rw [getNotified_mark]
    exact mem_addUnique _ _ _ h

theorem goalLoop_notified_mono (today : String) (b : List BRow) (snap : List String)
    (goals : List Goal) (x : String) :
    ∀ acc : CheckState, x ∈ getNotifiedGoalsToday acc.store today →
      x ∈ getNotifiedGoalsToday
        ((goals.foldl (goalStep today b snap) acc)).store today := by
  induction goals with
  | nil => intro acc h; exact h
  | cons g gs ih =>
    intro acc h
    rw [List.foldl_cons]
    exact ih _ (goalStep_notified_mono today b snap acc g x h)

theorem goalLoop_store_lookup (today : String) (b : List BRow) (snap : List String)
    (goals : List Goal) (k : String) (hk : k ≠ ledgerKey) :
    ∀ acc : CheckState,
      (goals.foldl (goalStep today b snap) acc).store.lookup k = acc.store.lookup k := by
  induction goals with
  | nil => intro acc; rfl
  | cons g gs ih =>
    intro acc
    rw [List.foldl_cons, ih]
    rcases goalStep_cases today b snap acc g with he | ⟨_, he⟩ <;> rw [he]
    show (markGoalNotified acc.store today g.categoryName).lookup k = acc.store.lookup k
    unfold markGoalNotified kvSet
    have hb : (k == ledgerKey) = false := beq_eq_false_iff_ne.mpr hk
    simp [List.lookup, hb]

theorem countCat_append (evs1 evs2 : List NotifEvent) (g : String) :
    countCat (evs1 ++ evs2) g = countCat evs1 g + countCat evs2 g := by
  simp [countCat, List.filter_append]

theorem countCat_goalEvent (x : Goal) (g : String) :
    countCat [goalEvent x] g = if x.categoryName = g then 1 else 0 := by
  by_cases h : x.categoryName = g <;>
    simp [countCat, goalEvent, h]

theorem goalLoop_count_skip (today : String) (b : List BRow) (snap : List String)
    (goals : List Goal) (g : String) (hg : g ∈ snap) :
    ∀ acc : CheckState,
      countCat (goals.foldl (goalStep today b snap) acc).events g =
        countCat acc.events g := by
  induction goals with
  | nil => intro acc; rfl
  | cons x xs ih =>
    intro acc
    rw [List.foldl_cons, ih]
    rcases goalStep_cases today b snap acc x with he | ⟨hm, he⟩ <;> rw [he]
    have hne : x.categoryName ≠ g := fun hc => hm (hc ▸ hg)
    rw [countCat_append, countCat_goalEvent]
    simp [hne]

theorem goalLoop_count_absent (today : String) (b : List BRow) (snap : List String)
    (goals : List Goal) (g : String) (hg : ∀ x ∈ goals, x.categoryName ≠ g) :
    ∀ acc : CheckState,
      countCat (goals.foldl (goalStep today b snap) acc).events g =
        countCat acc.events g := by
  induction goals with
  | nil => intro acc; rfl
  | cons x xs ih =>
    intro acc
    rw [List.foldl_cons, ih (fun y hy => hg y (List.mem_cons_of_mem x hy))]
    rcases goalStep_cases today b snap acc x with he | ⟨_, he⟩ <;> rw [he]
    rw [countCat_append, countCat_goalEvent]
    simp [hg x (List.mem_cons_self x xs)]

theorem goalLoop_count_le (today : String) (b : List BRow) (snap : List String)
    (goals : List Goal) (g : String)
    (hnd : (goals.map (fun x => x.categoryName)).Nodup) :
    ∀ acc : CheckState,
      countCat (goals.foldl (goalStep today b snap) acc).events g ≤
        countCat acc.events g + 1 := by
  induction goals with
  | nil => intro acc; exact Nat.le_succ _
  | cons x xs ih =>
    intro acc
    rw [List.foldl_cons]
    have hnd2 := List.nodup_cons.mp hnd
    by_cases hxg : x.categoryName = g
    · have habs : ∀ y ∈ xs, y.categoryName ≠ g := by
        intro y hy he
        exact hnd2.1 (List.mem_map.mpr
          ⟨y, hy, show y.categoryName = x.categoryName by rw [he, hxg]⟩)
      rw [goalLoop_count_absent today b snap xs g habs]
      rcases goalStep_cases today b snap acc x with he | ⟨_, he⟩ <;> rw [he]
      · exact Nat.le_succ _
      · rw [countCat_append, countCat_goalEvent]
        simp [hxg]
    · have hstep : countCat (goalStep today b snap acc x).events g =
          countCat acc.events g := by
        rcases goalStep_cases today b snap acc x with he | ⟨_, he⟩ <;> rw [he]
        rw [countCat_append, countCat_goalEvent]
        simp [hxg]
      calc countCat (xs.foldl (goalStep today b snap) (goalStep today b snap acc x)).events g
          ≤ countCat (goalStep today b snap acc x).events g + 1 := ih hnd2.2 _
        _ = countCat acc.events g + 1 := by rw [hstep]

theorem goalLoop_count_mark (today : String) (b : List BRow) (snap : List String)
    (goals : List Goal) (g : String) :
    ∀ acc : CheckState,
      countCat acc.events g < countCat (goals.foldl (goalStep today b snap) acc).events g →
      g ∈ getNotifiedGoalsToday (goals.foldl (goalStep today b snap) acc).store today := by
  induction goals with
  | nil => intro acc h; exact absurd h (lt_irrefl _)
  | cons x xs ih =>
    intro acc h
    rw [List.foldl_cons] at h ⊢
    rcases goalStep_cases today b snap acc x with he | ⟨_, he⟩
    · rw [he] at h ⊢
      exact ih _ h
    · by_cases hxg : x.categoryName = g
      · apply goalLoop_notified_mono
        rw [he]
        show g ∈ getNotifiedGoalsToday (markGoalNotified acc.store today x.categoryName) today
        rw [getNotified_mark, hxg]
        exact self_mem_addUnique _ _
      · apply ih
        have hstep : countCat (goalStep today b snap acc x).events g =
            countCat acc.events g := by
          rw [he]
          show countCat (acc.events ++ [goalEvent x]) g = countCat acc.events g
          rw [countCat_append, countCat_goalEvent]
          simp [hxg]
        rw [hstep]
        exact h

theorem checkGoals_enabled_eq (today : String) (b : List BRow) (st : CheckState)
    (goals : List Goal) (gj : Json)
    (hen : notificationsEnabled st.store = true)
    (hdg : st.store.lookup "daily_goals" = some gj)
    (hgj : decodeGoals gj = some goals) :
    checkGoals today b st =
      goals.foldl (goalStep today b (getNotifiedGoalsToday st.store today)) st := by
  unfold checkGoals
  rw [if_pos hen, hdg]
  simp only [hgj]

theorem mem_insertDescBy {α : Type} (key : α → Nat) (x y : α) (l : List α) :
    y ∈ insertDescBy key x l ↔ y = x ∨ y ∈ l := by
  induction l with
  | nil => simp [insertDescBy]
  | cons a as ih =>
    unfold insertDescBy
    split
    · simp
    · rw [List.mem_cons, ih]
      simp [List.mem_cons]
      tauto

theorem mem_sortDescBy {α : Type} (key : α → Nat) (l : List α) (y : α) :
    y ∈ sortDescBy key l ↔ y ∈ l := by
  induction l with
  | nil => simp [sortDescBy]
  | cons a as ih =>
    show y ∈ insertDescBy key a (sortDescBy key as) ↔ _
    rw [mem_insertDescBy, ih]
    simp

theorem bucketAppend_inv (m : List (Nat × List ActivityRecord)) (k : Nat)
    (v : ActivityRecord)
    (hm : ∀ p ∈ m, ∀ r ∈ p.2, r.session_id.getD 0 = p.1)
    (hv : v.session_id.getD 0 = k) :
    ∀ p ∈ bucketAppend m k v, ∀ r ∈ p.2, r.session_id.getD 0 = p.1 := by
  induction m with
  | nil =>
    intro p hp r hr
    simp [bucketAppend] at hp
    subst hp
    simp at hr
    subst hr
    exact hv
  | cons q m ih =>
    obtain ⟨k', vs⟩ := q
    intro p hp r hr
    unfold bucketAppend at hp
    by_cases hk : k' = k
    · rw [if_pos hk] at hp
      rcases List.mem_cons.mp hp with rfl | hp
      · rcases List.mem_append.mp hr with hr | hr
        · exact hm (k', vs) (List.mem_cons_self _ _) r hr
        · rw [List.mem_singleton.mp hr, hk]
          exact hv
      · exact hm p (List.mem_cons_of_mem _ hp) r hr
    · rw [if_neg hk] at hp
      rcases List.mem_cons.mp hp with rfl | hp
      · exact hm (k', vs) (List.mem_cons_self _ _) r hr
      · exact ih (fun p hp => hm p (List.mem_cons_of_mem _ hp)) p hp r hr

theorem bucketFold_inv (acts : List ActivityRow) :
    ∀ m : List (Nat × List ActivityRecord),
      (∀ p ∈ m, ∀ r ∈ p.2, r.session_id.getD 0 = p.1) →
      ∀ p ∈ acts.foldl
          (fun m a => bucketAppend m (a.sessionId.getD 0) (mapToRecord a)) m,
        ∀ r ∈ p.2, r.session_id.getD 0 = p.1 := by
  induction acts with
  | nil => intro m hm; exact hm
  | cons a as ih =>
    intro m hm
    rw [List.foldl_cons]
    exact ih _ (bucketAppend_inv m _ _ hm rfl)

theorem lookup_pair_mem {β : Type} (k : Nat) (vs : β) :
    ∀ m : List (Nat × β), m.lookup k = some vs → (k, vs) ∈ m := by
  intro m
  induction m with
  | nil => intro h; cases h
  | cons q m ih =>
    obtain ⟨k', v'⟩ := q
    intro h
    rw [List.lookup] at h
    by_cases hk : k == k'
    · rw [hk] at h
      injection h with h2
      have : k = k' := by simpa using hk
      rw [this, h2]
      exact List.mem_cons_self _ _
    · rw [Bool.not_eq_true] at hk
      rw [hk] at h
      exact List.mem_cons_of_mem _ (ih h)

theorem roundDiv_mul (m k : Nat) (hk : 0 < k) : roundDiv (m * k) k = m := by
  unfold roundDiv
  rw [show 2 * (m * k) + k = 2 * k * m + k by ring]
  rw [Nat.mul_add_div (by omega)]
  rw [Nat.div_eq_of_lt (by omega)]
  omega

theorem getBreakIntervalMs_minutes (val : Option String) :
    roundDiv (getBreakIntervalMs val) 60000 = getBreakIntervalMs val / 60000 := by
  unfold getBreakIntervalMs
  generalize (match val with
    | none => 60
    | some s =>
      if s = "" then 60
      else
        match jsParseInt s with
        | none => 60
        | some m => if m < 1 then 60 else m.toNat) = m
  rw [roundDiv_mul m 60000 (by omega), Nat.mul_div_cancel m (by omega)]

/-! ## Claim theorems -/

/-- C4 (amended): for every goal list stored under `daily_goals` whose
`categoryName`s are pairwise distinct, running `checkGoals` twice in the
same local day (arbitrary breakdowns) shows the goal-reached notification
for any category at most once across both calls; the second firing is
suppressed by the persisted ledger. -/
theorem c4_goal_notified_at_most_once (today : String) (goals : List Goal) (b1 b2 : List BRow)
    (s0 : KV) (gj : Json) (g : String)
    (hdg : s0.lookup "daily_goals" = some gj)
    (hgj : decodeGoals gj = some goals)
    (hnd : (goals.map (fun x => x.categoryName)).Nodup) :
    countCat (checkGoals today b2 (checkGoals today b1
      { store := s0, events := [] })).events g ≤ 1 := by
  by_cases hen : notificationsEnabled s0 = true
  · have hc1 := checkGoals_enabled_eq today b1 { store := s0, events := [] } goals gj hen hdg hgj
    set st1 := checkGoals today b1 { store := s0, events := [] } with hst1
    have hlk : ∀ k, k ≠ ledgerKey → st1.store.lookup k = s0.lookup k := by
      intro k hk
      rw [hc1]
      exact goalLoop_store_lookup today b1 _ goals k hk _
    have hen2 : notificationsEnabled st1.store = true := by
      unfold notificationsEnabled getSettingStr at hen ⊢
      rw [hlk "notifications_enabled" (by decide)]
      exact hen
    have hdg2 : st1.store.lookup "daily_goals" = some gj := by
      rw [hlk "daily_goals" (by decide)]
      exact hdg
    have hc2 := checkGoals_enabled_eq today b2 st1 goals gj hen2 hdg2 hgj
    rw [hc2]
    by_cases hg1 : g ∈ getNotifiedGoalsToday s0 today
    · have hev1 : countCat st1.events g = 0 := by
        rw [hc1]
        exact goalLoop_count_skip today b1 _ goals g hg1 _
      have hg2 : g ∈ getNotifiedGoalsToday st1.store today := by
        rw [hc1]
        exact goalLoop_notified_mono today b1 _ goals g _ hg1
      rw [goalLoop_count_skip today b2 _ goals g hg2 st1, hev1]
      omega
    · have hev1 : countCat st1.events g ≤ 1 := by
        have hle := goalLoop_count_le today b1 (getNotifiedGoalsToday s0 today) goals g hnd
          { store := s0, events := [] }
        rw [← hc1] at hle
        simpa [countCat] using hle
      rcases Nat.eq_zero_or_pos (countCat st1.events g) with hz | hp
      · have hle2 := goalLoop_count_le today b2 (getNotifiedGoalsToday st1.store today)
          goals g hnd st1
        omega
      · have hmark : g ∈ getNotifiedGoalsToday st1.store today := by
          rw [hc1]
          apply goalLoop_count_mark today b1 (getNotifiedGoalsToday s0 today) goals g
            { store := s0, events := [] }
          have hp' := hp
          rw [hc1] at hp'
          exact hp'
        rw [goalLoop_count_skip today b2 _ goals g hmark st1]
        omega
  · have hc1 : checkGoals today b1 { store := s0, events := [] } =
        { store := s0, events := [] } := by
      unfold checkGoals
      rw [if_neg hen]
    have hc2 : checkGoals today b2 ({ store := s0, events := [] } : CheckState) =
        { store := s0, events := [] } := by
      unfold checkGoals
      rw [if_neg hen]
    rw [hc1, hc2]
    simp [countCat]

/-- C9: `getSessionsWithActivities` never lists an activity whose
`sessionId` is null under any returned session: such activities land in
the sentinel bucket `0`, which matches no stored session id (all ids are
positive). -/
theorem c9_orphan_activities_dropped (sessions : List SessionRow) (acts : List ActivityRow)
    (startTime endTime : Nat)
    (hpos : ∀ s ∈ sessions, 0 < s.id) :
    ∀ sw ∈ getSessionsWithActivities sessions acts startTime endTime,
      ∀ r ∈ sw.activities, r.session_id ≠ none := by
  intro sw hsw r hr
  unfold getSessionsWithActivities at hsw
  by_cases hemp : (sortDescBy (fun s => s.startTime)
      (sessions.filter
        (fun s => decide (startTime ≤ s.startTime ∧ s.startTime ≤ endTime)))).isEmpty
  · rw [if_pos hemp] at hsw
    cases hsw
  · rw [if_neg hemp] at hsw
    obtain ⟨s, hs, rfl⟩ := List.mem_map.mp hsw
    have hsmem : s ∈ sessions := by
      have := (mem_sortDescBy _ _ s).mp hs
      exact List.mem_of_mem_filter this
    have hsid : 0 < s.id := hpos s hsmem
    simp only at hr
    cases hlu : (((sortDescBy (fun a => a.startTime)
        (acts.filter
          (fun a => decide (startTime ≤ a.startTime ∧ a.startTime ≤ endTime)))).foldl
        (fun m a => bucketAppend m (a.sessionId.getD 0) (mapToRecord a))
        []).lookup s.id) with
    | none =>
      rw [hlu] at hr
      cases hr
    | some vs =>
      rw [hlu] at hr
      have hpm := lookup_pair_mem s.id vs _ hlu
      have hinv := bucketFold_inv _ [] (by intro p hp; cases hp) _ hpm r hr
      intro hnone
      rw [hnone] at hinv
      simp at hinv
      omega

/-- C7: break-reminder rate limit.  When a break task armed from the
`break_interval_minutes` setting fires, a firing less than five minutes
after the last shown break notification is suppressed with the recorded
time unchanged and nothing shown; otherwise the "Time for a break!"
notification is shown with N the armed interval in minutes, and the
firing time becomes the new last-shown time. -/
theorem c7_break_reminder_rate_limit (val : Option String) (now lastShown : Nat) :
    (now - lastShown < 5 * 60000 →
      fireBreakReminder (getBreakIntervalMs val) now lastShown = (lastShown, [])) ∧
    (5 * 60000 ≤ now - lastShown →
      fireBreakReminder (getBreakIntervalMs val) now lastShown =
        (now, [{ title := "Time for a break!",
                 body := "You\x27ve been working for " ++
                   toString (getBreakIntervalMs val / 60000) ++ " minutes.",
                 category := none }])) := by
  constructor
  · intro h
    unfold fireBreakReminder
    rw [if_pos h]
  · intro h
    unfold fireBreakReminder
    rw [if_neg (by omega), getBreakIntervalMs_minutes]

/-- Witness for C7 at the spec's Scenario B: interval 30 min, prior
break at t=30 min; a firing at t=33 min is suppressed, one at t=65 min
shows "You've been working for 30 minutes.". -/
theorem c7_break_reminder_rate_limit_witness :
    fireBreakReminder (getBreakIntervalMs (some "30")) 1980000 1800000 = (1800000, []) ∧
    fireBreakReminder (getBreakIntervalMs (some "30")) 3900000 1800000 =
      (3900000, [{ title := "Time for a break!",
                   body := "You\x27ve been working for 30 minutes.",
                   category := none }]) :=
  ⟨(c7_break_reminder_rate_limit (some "30") 1980000 1800000).1 (by omega),
   (c7_break_reminder_rate_limit (some "30") 3900000 1800000).2 (by omega)⟩

/-- C3 (code bug): at the spec's Scenario C (goal development/3 600 000 ms,
3 700 000 ms of development tracked today, notifications enabled, empty
ledger) the source `checkGoals` shows nothing and leaves the store
unchanged, because it matches goals against the nonexistent row property
`category_name` (the breakdown rows carry `category`); the spec-modelled
`checkGoalsSpec`, matching on the `category` column, marks the ledger and
shows "Goal reached!" / "You hit your development goal of 1h.". -/
theorem c3_goal_firing_bug :
    getCategoryBreakdown [c3Activity] 0 86400000 =
      [{ category := some "development", total_duration := 3700000, session_count := 1 }] ∧
    checkGoals "Sat Oct 11 2025" (getCategoryBreakdown [c3Activity] 0 86400000)
      { store := c3Store, events := [] } = { store := c3Store, events := [] } ∧
    checkGoalsSpec "Sat Oct 11 2025" (getCategoryBreakdown [c3Activity] 0 86400000)
      { store := c3Store, events := [] } =
      { store := markGoalNotified c3Store "Sat Oct 11 2025" "development",
        events := [{ title := "Goal reached!",
                     body := "You hit your development goal of 1h.",
                     category := some "development" }] } :=
  ⟨rfl, rfl, by rfl⟩

/-- Counterexample to C4 as stated ("for every goal list"): a goal list
naming category "x" twice (target 0) fires two goal-reached notifications
for "x" in the first call already, because the ledger snapshot is taken
once before the loop. -/
theorem c4_duplicate_goals_counterexample :
    countCat (checkGoals "Sat Oct 11 2025" [] (checkGoals "Sat Oct 11 2025" []
      { store := c4Store, events := [] })).events "x" = 2 ∧
    ¬ (countCat (checkGoals "Sat Oct 11 2025" [] (checkGoals "Sat Oct 11 2025" []
      { store := c4Store, events := [] })).events "x" ≤ 1) := by
  constructor
  · rfl
  · decide

/-- Counterexample to C5 as stated: with summaries enabled, not shown
today, and 45 000 ms tracked, the fire returns with
`dailySummaryShownToday = true` and `lastSummaryDate` set — the source
marks shown-for-today before the 60 000 ms check — while the claim says
the state is unchanged. -/
theorem c5_low_activity_counterexample :
    dailySummaryEnabled [] = true ∧
    getTotalTrackedTime [c5Activity] 0 86400000 = 45000 ∧
    fireDailySummary [] "Sat Oct 11 2025" (getTotalTrackedTime [c5Activity] 0 86400000)
        (getCategoryBreakdown [c5Activity] 0 86400000) false none =
      { dailySummaryShownToday := true, lastSummaryDate := some "Sat Oct 11 2025",
        events := [], crashed := false } :=
  ⟨rfl, rfl, rfl⟩

/-- C5 (amended): when the daily-summary fire is enabled, not yet shown
today, and the total tracked time is under 60 000 ms, no notification is
shown and no crash occurs, but the shown-for-today state IS marked
(`dailySummaryShownToday := true`, `lastSummaryDate := today`). -/
theorem c5_low_activity_marks_shown (store : KV) (today : String) (totalTime : Nat)
    (breakdown : List BRow) (shownToday : Bool) (lastDate : Option String)
    (hen : dailySummaryEnabled store = true)
    (hns : ¬ (shownToday ∧ lastDate = some today))
    (hlt : totalTime < 60000) :
    fireDailySummary store today totalTime breakdown shownToday lastDate =
      { dailySummaryShownToday := true, lastSummaryDate := some today,
        events := [], crashed := false } := by
  unfold fireDailySummary
  rw [hen]
  simp only [Bool.not_true, Bool.false_eq_true, if_false]
  rw [if_neg hns, if_pos hlt]

/-- C6 (code bug): with 90 minutes tracked today (>= 60 000 ms, summaries
enabled, not shown), `fireDailySummary` marks shown-for-today and then
throws a TypeError instead of showing the summary: it reads
`topCategory.category_name`, a property the breakdown rows do not have
(their column is `category`), and calls `.replace` on `undefined`.  No
notification is emitted. -/
theorem c6_daily_summary_crash_bug :
    getTotalTrackedTime [c6Activity] 0 86400000 = 5400000 ∧
    formatDuration 5400000 = "1h 30m" ∧
    fireDailySummary [] "Sat Oct 11 2025" (getTotalTrackedTime [c6Activity] 0 86400000)
        (getCategoryBreakdown [c6Activity] 0 86400000) false none =
      { dailySummaryShownToday := true, lastSummaryDate := some "Sat Oct 11 2025",
        events := [], crashed := true } :=
  ⟨rfl, rfl, rfl⟩

/-- Counterexample to C8 as stated: the stored string "25" parses to 25,
but `getDailySummaryHour` returns the default 18, not the clamped 23. -/
theorem c8_out_of_range_hour_counterexample :
    jsParseInt "25" = some 25 ∧ getDailySummaryHour (some "25") = 18 ∧
      getDailySummaryHour (some "25") ≠ 23 := by
  refine ⟨rfl, rfl, ?_⟩
  decide

/-- C8 (amended): `getDailySummaryHour` returns the parsed hour when it
lies in [0, 23] and the default 18 otherwise — out-of-range values fall
back to 18 rather than being clamped; an absent or non-numeric value also
gives 18. -/
theorem c8_summary_hour_default :
    getDailySummaryHour none = 18 ∧
    (∀ s, jsParseInt s = none → getDailySummaryHour (some s) = 18) ∧
    (∀ s h, jsParseInt s = some h →
      getDailySummaryHour (some s) = if 0 ≤ h ∧ h ≤ 23 then h else 18) := by
  refine ⟨rfl, ?_, ?_⟩
  · intro s hs
    by_cases he : s = ""
    · simp [getDailySummaryHour, he]
    · simp [getDailySummaryHour, he, hs]
  · intro s h hs
    have he : s ≠ "" := by
      intro h0
      rw [h0] at hs
      exact Option.noConfusion hs
    simp only [getDailySummaryHour, if_neg he, hs]
    split_ifs <;> omega

/-- C10: every session row is created with `endTime = startTime`,
`totalDuration = 0`, `activityCount = 0`, hence `startTime ≤ endTime` at
creation; and the per-activity update preserves `startTime ≤ endTime`
whenever the new end time is at least the session's start time. -/
theorem c10_session_time_bounds :
    (∀ (id : Nat) (appName : String) (category : Option String) (startTime : Nat),
      (newSessionRow id appName category startTime).endTime =
        (newSessionRow id appName category startTime).startTime ∧
      (newSessionRow id appName category startTime).totalDuration = 0 ∧
      (newSessionRow id appName category startTime).activityCount = 0 ∧
      (newSessionRow id appName category startTime).startTime ≤
        (newSessionRow id appName category startTime).endTime) ∧
    (∀ (s : SessionRow) (endTime duration : Nat), s.startTime ≤ endTime →
      (applySessionUpdate s endTime duration).startTime ≤
        (applySessionUpdate s endTime duration).endTime ∧
      (applySessionUpdate s endTime duration).startTime = s.startTime) := by
  constructor
  · intro id appName category startTime
    exact ⟨rfl, rfl, rfl, le_refl _⟩
  · intro s endTime duration h
    exact ⟨h, rfl⟩

/-- C1: session totals invariant.  After any sequence of aggregator
operations (`insertActivity` as one logical step each, `closeCurrentSession`
in between) starting from a fresh database, every stored session's
`totalDuration` is the sum of the durations of its activities and its
`activityCount` is their number. -/
theorem c1_session_totals_invariant (ops : List Op) :
    totalsInv (runOps initState ops) :=
  (runOps_preserves ops initState initState_wf initState_totalsInv).2

/-- Witness for C2 at the spec's Scenario A: three 10-minute "Editor"
samples from a fresh database produce one session (id 1) holding all
three activities, with total duration 1 800 000 ms and activity count 3. -/
theorem c2_same_app_grouping_witness :
    ([editorSample 0, editorSample 600000, editorSample 1200000].map
      (fun x => x.duration)).sum = 1800000 ∧
    [editorSample 0, editorSample 600000, editorSample 1200000].length = 3 ∧
    (∃ rows,
      (insertRun initState [editorSample 0, editorSample 600000, editorSample 1200000]).activities =
        initState.activities ++ rows ∧
      rows.map (fun r => r.sessionId) =
        [editorSample 0, editorSample 600000, editorSample 1200000].map
          (fun _ => (some initState.nextSessionId : Option Nat)) ∧
      (insertRun initState
        [editorSample 0, editorSample 600000, editorSample 1200000]).sessions.length =
        initState.sessions.length + 1 ∧
      (∃ s ∈ (insertRun initState
          [editorSample 0, editorSample 600000, editorSample 1200000]).sessions,
        s.id = initState.nextSessionId) ∧
      (∀ s ∈ (insertRun initState
          [editorSample 0, editorSample 600000, editorSample 1200000]).sessions,
        s.id = initState.nextSessionId →
        s.activityCount = [editorSample 0, editorSample 600000, editorSample 1200000].length ∧
        s.totalDuration =
          ([editorSample 0, editorSample 600000, editorSample 1200000].map
            (fun x => x.duration)).sum)) :=
  ⟨by decide, by decide,
   c2_same_app_grouping initState "Editor"
     [editorSample 0, editorSample 600000, editorSample 1200000]
     initState_wf initState_totalsInv (by decide) (by decide) (by decide)⟩

/-- Witness for C4 (amended) with one goal of category "x" and target 0:
two `checkGoals` calls notify "x" at most once. -/
theorem c4_goal_notified_at_most_once_witness :
    countCat (checkGoals "Sat Oct 11 2025" [] (checkGoals "Sat Oct 11 2025" []
      { store := [("daily_goals", encodeGoals [{ categoryName := "x", targetMs := 0 }])],
        events := [] })).events "x" ≤ 1 :=
  c4_goal_notified_at_most_once "Sat Oct 11 2025"
    [{ categoryName := "x", targetMs := 0 }] [] []
    [("daily_goals", encodeGoals [{ categoryName := "x", targetMs := 0 }])]
    (encodeGoals [{ categoryName := "x", targetMs := 0 }]) "x" rfl rfl (by decide)

/-- Witness for C5 (amended) at the spec's Scenario D numbers: empty store
(summaries enabled by default), 45 000 ms tracked, not shown today. -/
theorem c5_low_activity_marks_shown_witness :
    fireDailySummary [] "Sat Oct 11 2025" 45000 [] false none =
      { dailySummaryShownToday := true, lastSummaryDate := some "Sat Oct 11 2025",
        events := [], crashed := false } :=
  c5_low_activity_marks_shown [] "Sat Oct 11 2025" 45000 [] false none rfl
    (by simp) (by omega)

/-- Witness for C8 (amended): a stored "7" parses to 7, which is in range
and is used as the summary hour. -/
theorem c8_summary_hour_default_witness :
    getDailySummaryHour (some "7") = 7 := by
  have h := c8_summary_hour_default.2.2 "7" 7 rfl
  rw [if_pos (by omega)] at h
  exact h

/-- Witness for C9: one stored session (id 1) and two in-range activities,
one of them with a null `sessionId`; no returned session lists an
activity with a null `sessionId`. -/
theorem c9_orphan_activities_dropped_witness :
    (∀ s ∈ [c9Session], 0 < s.id) ∧
    (∀ sw ∈ getSessionsWithActivities [c9Session] [c9Orphan, c3Activity] 0 86400000,
      ∀ r ∈ sw.activities, r.session_id ≠ none) :=
  ⟨by decide, c9_orphan_activities_dropped [c9Session] [c9Orphan, c3Activity] 0 86400000
    (by decide)⟩

/-- Witness for C10 at concrete inputs: a session created at t=5 satisfies
the bound and keeps it after an update to end time 9. -/
theorem c10_session_time_bounds_witness :
    (newSessionRow 1 "Editor" (some "development") 5).startTime ≤
      (newSessionRow 1 "Editor" (some "development") 5).endTime ∧
    (applySessionUpdate (newSessionRow 1 "Editor" (some "development") 5) 9 4).startTime ≤
      (applySessionUpdate (newSessionRow 1 "Editor" (some "development") 5) 9 4).endTime :=
  ⟨(c10_session_time_bounds.1 1 "Editor" (some "development") 5).2.2.2,
   (c10_session_time_bounds.2 (newSessionRow 1 "Editor" (some "development") 5) 9 4
     (by decide)).1⟩
